import Mathlib

/-!
Shallow embedding of the MiVSP QVSPSocket protocol engine
(qvspsocket.h / qvspsocket.cpp).

The socket state is the record `VSP`, whose fields mirror the private
members of class `QVSPSocket`.  Characteristic and descriptor handles are
modelled as booleans recording whether they have been resolved to valid
transport handles (pre-connection default: unresolved).  Each member
function and each connected lambda handler of `connectToDevice` becomes a
pure function from the state to a new state together with the list of
observable outputs (transport operations and emitted Qt signals) it
produces, in program order.  Byte arrays are lists of naturals.
-/

namespace MiVSP

/-- Maximum packet data size, PACKET_SIZE in qvspsocket.cpp (20 is the
default for Bluetooth LE). -/
def PACKET_SIZE : Nat := 20

/-- Manufacturer variants, from qvspsocket.h. -/
inductive Manufacturer where
  | Laird
  | BlueRadios
deriving DecidableEq

/-- Socket states used by the implementation
(QBluetoothSocket::SocketState). -/
inductive SocketState where
  | UnconnectedState
  | ConnectingState
  | ConnectedState
  | ClosingState
deriving DecidableEq

/-- Service errors produced by the modelled handlers
(QLowEnergyService::ServiceError). -/
inductive ServiceError where
  | NoError
  | OperationError
  | CharacteristicReadError
deriving DecidableEq

/-- Kinds of message installed via setErrorString by the modelled code
paths. -/
inductive ErrMsg where
  | noMsg
  | cannotReadNotConnected
  | cannotWriteNotConnected
  | readOverflow
  | writeOverflow
deriving DecidableEq

/-- Characteristics of the VSP service. -/
inductive CharId where
  | rxFifo
  | txFifo
  | modemIn
  | modemOut
  | brspMode
deriving DecidableEq

/-- Notification configuration descriptors. -/
inductive DescId where
  | txFifoNotify
  | modemOutNotify
deriving DecidableEq

/-- MODEM_SET_BIT: the per-manufacturer byte written to assert a modem
line. -/
def MODEM_SET_BIT : Manufacturer → List Nat
  | .Laird => [1]
  | .BlueRadios => [0]

/-- MODEM_CLEAR_BIT: the per-manufacturer byte written to deassert a modem
line. -/
def MODEM_CLEAR_BIT : Manufacturer → List Nat
  | .Laird => [0]
  | .BlueRadios => [1]

/-- BRSP_MODE_DATA: the single byte 0x01 switching BlueRadios chips into
data mode. -/
def BRSP_MODE_DATA : List Nat := [1]

/-- DESC_NOTIFY_ON: the descriptor value 0x0100 as bytes. -/
def DESC_NOTIFY_ON : List Nat := [1, 0]

/-- Observable outputs: transport operations issued and Qt signals
emitted, in program order. -/
inductive Output where
  | writeChar (c : CharId) (v : List Nat)
  | readChar (c : CharId)
  | writeDesc (d : DescId) (v : List Nat)
  | connectDevice
  | disconnectDevice
  | sigStateChanged (s : SocketState)
  | sigReadChannelFinished
  | sigConnected
  | sigDisconnected
  | sigError (e : ServiceError)
  | sigReadyRead
  | sigBytesWritten (n : Nat)
  | ioClose
deriving DecidableEq

/-- State of a QVSPSocket, mirroring the private members of the class in
qvspsocket.h.  Handle-valued members are booleans recording whether the
handle has been resolved (default: not resolved). -/
structure VSP where
  m : Manufacturer := .Laird
  maxBufferSize : Nat := 4096
  _state : SocketState := .UnconnectedState
  _error : ServiceError := .NoError
  errMsg : ErrMsg := .noMsg
  hasController : Bool := false
  hasService : Bool := false
  rxFifoChar : Bool := false
  txFifoChar : Bool := false
  modemInChar : Bool := false
  modemOutChar : Bool := false
  brspModeChar : Bool := false
  txFifoNotify : Bool := false
  modemOutNotify : Bool := false
  cts : Bool := false
  rts : Bool := false
  isOpen : Bool := false
  readBuffer : List Nat := []
  writeBuffer : List Nat := []
deriving DecidableEq

/-- QVSPSocket::writeInternal: if cts, dequeue up to PACKET_SIZE bytes
from writeBuffer and, if non-empty, write them to the RX FIFO
characteristic, emit bytesWritten and remove them from the buffer. -/
def writeInternal (s : VSP) : VSP × List Output :=
  if s.cts then
    let buffer := s.writeBuffer.take PACKET_SIZE
    if buffer ≠ [] then
      ({ s with writeBuffer := s.writeBuffer.drop buffer.length },
       [.writeChar .rxFifo buffer, .sigBytesWritten buffer.length])
    else (s, [])
  else (s, [])

/-- QVSPSocket::writeData.  Returns the new state, the outputs and the
qint64 result (-1 on failure, len on success). -/
def writeData (data : List Nat) (s : VSP) : VSP × List Output × Int :=
  if s.isOpen = false then
    ({ s with errMsg := .cannotWriteNotConnected, _error := .OperationError },
     [.sigError .OperationError], -1)
  else if s.writeBuffer.length + data.length + 1 > s.maxBufferSize then
    ({ s with errMsg := .writeOverflow, _error := .OperationError },
     [.sigError .OperationError], -1)
  else
    let s1 := { s with writeBuffer := s.writeBuffer ++ data }
    let r := writeInternal s1
    (r.1, r.2, (data.length : Int))

/-- QVSPSocket::readData.  Returns the new state, the outputs, the qint64
result and the bytes handed to the caller.  The cooperative event-loop
pumping is external event delivery and is modelled by separate events. -/
def readData (maxlen : Nat) (s : VSP) : VSP × List Output × Int × List Nat :=
  if s.isOpen = false then
    ({ s with errMsg := .cannotReadNotConnected, _error := .OperationError },
     [.sigError .OperationError], -1, [])
  else
    let res := s.readBuffer.take maxlen
    let s1 := { s with readBuffer := s.readBuffer.drop res.length }
    if s1.rts = false ∧ s1.readBuffer.length + PACKET_SIZE + 1 ≤ s1.maxBufferSize then
      (s1, [.writeChar .modemIn (MODEM_SET_BIT s1.m)], (res.length : Int), res)
    else (s1, [], (res.length : Int), res)

/-- QVSPSocket::close: no-op when not open, otherwise the teardown
sequence.  The re-init block resets controller, service, cts, rts and both
buffers; the resolved characteristic and descriptor handles and the
manufacturer are not touched by it. -/
def close (s : VSP) : VSP × List Output :=
  if s.isOpen then
    ({ s with _state := .UnconnectedState,
              hasController := false, hasService := false,
              cts := false, rts := false,
              readBuffer := [], writeBuffer := [],
              isOpen := false },
     [.sigStateChanged .ClosingState, .sigReadChannelFinished,
      .disconnectDevice, .ioClose,
      .sigStateChanged .UnconnectedState, .sigDisconnected])
  else (s, [])

/-- QVSPSocket::connectToDevice, the synchronous part: the isOpen guard,
controller creation, the transport connect request and the state change to
ConnectingState.  The handlers it installs are modelled as the `handle*`
functions below. -/
def connectToDevice (s : VSP) : VSP × List Output :=
  if s.isOpen then (s, [])
  else
    ({ s with hasController := true, _state := .ConnectingState },
     [.connectDevice, .sigStateChanged .ConnectingState])

/-- QVSPSocket::unsetRTS. -/
def unsetRTS (s : VSP) : VSP × List Output :=
  if s.rts then (s, [.writeChar .modemIn (MODEM_CLEAR_BIT s.m)])
  else (s, [])

/-- QVSPSocket::setRTS. -/
def setRTS (s : VSP) : VSP × List Output :=
  if s.rts = false ∧ s.readBuffer.length + PACKET_SIZE + 1 ≤ s.maxBufferSize then
    (s, [.writeChar .modemIn (MODEM_SET_BIT s.m)])
  else (s, [])

/-- The characteristicChanged handler installed by connectToDevice. -/
def handleCharacteristicChanged (c : CharId) (v : List Nat) (s : VSP) :
    VSP × List Output :=
  if c = .txFifo then
    if s.readBuffer.length + v.length + 1 > s.maxBufferSize then
      ({ s with errMsg := .readOverflow, _error := .CharacteristicReadError },
       [.writeChar .modemIn (MODEM_CLEAR_BIT s.m),
        .sigError .CharacteristicReadError])
    else
      let s1 := { s with readBuffer := s.readBuffer ++ v }
      (s1,
       (if s1.readBuffer.length + PACKET_SIZE + 1 > s1.maxBufferSize then
          [Output.writeChar .modemIn (MODEM_CLEAR_BIT s1.m)]
        else [])
       ++ (if s1.isOpen then [Output.sigReadyRead] else []))
  else if c = .modemOut then
    writeInternal { s with cts := decide (v = MODEM_SET_BIT s.m) }
  else (s, [])

/-- The characteristicWritten handler installed by connectToDevice. -/
def handleCharacteristicWritten (c : CharId) (v : List Nat) (s : VSP) :
    VSP × List Output :=
  if c = .rxFifo then writeInternal s
  else if c = .modemIn then
    let s1 := { s with rts := decide (v = MODEM_SET_BIT s.m) }
    if s1.rts = true ∧ s1.isOpen = false then (s1, [.readChar .modemOut])
    else (s1, [])
  else if c = .brspMode then (s, [.writeDesc .txFifoNotify DESC_NOTIFY_ON])
  else (s, [])

/-- The characteristicRead handler installed by connectToDevice. -/
def handleCharacteristicRead (c : CharId) (v : List Nat) (s : VSP) :
    VSP × List Output :=
  if c = .modemOut ∧ s.isOpen = false then
    let s1 := { s with cts := decide (v = MODEM_SET_BIT s.m),
                       isOpen := true, _state := .ConnectedState }
    (s1, [.sigStateChanged .ConnectedState, .sigConnected]
          ++ (if s1.readBuffer ≠ [] then [Output.sigReadyRead] else []))
  else (s, [])

/-- The descriptorWritten handler installed by connectToDevice. -/
def handleDescriptorWritten (d : DescId) (v : List Nat) (s : VSP) :
    VSP × List Output :=
  if d = .txFifoNotify ∧ v = DESC_NOTIFY_ON then
    (s, [.writeDesc .modemOutNotify DESC_NOTIFY_ON])
  else if d = .modemOutNotify ∧ v = DESC_NOTIFY_ON then
    (s, [.writeChar .modemIn (MODEM_SET_BIT s.m)])
  else (s, [])

/-- The service stateChanged handler on ServiceDiscovered, success path:
all characteristic and descriptor handles resolve, then either the BRSP
mode switch is written (BlueRadios) or TX FIFO notifications are enabled
directly (Laird). -/
def handleServiceDiscovered (s : VSP) : VSP × List Output :=
  let s1 := { s with rxFifoChar := true, txFifoChar := true,
                     modemInChar := true, modemOutChar := true,
                     brspModeChar := decide (s.m = Manufacturer.BlueRadios),
                     txFifoNotify := true, modemOutNotify := true }
  if s1.m = .BlueRadios then
    (s1, [.writeChar .brspMode BRSP_MODE_DATA])
  else
    (s1, [.writeDesc .txFifoNotify DESC_NOTIFY_ON])

/-- External events driving the socket: facade calls and Transport
Provider callbacks. -/
inductive Event where
  | evWrite (data : List Nat)
  | evRead (maxlen : Nat)
  | evCharChanged (c : CharId) (v : List Nat)
  | evCharWritten (c : CharId) (v : List Nat)
  | evCharRead (c : CharId) (v : List Nat)
  | evDescWritten (d : DescId) (v : List Nat)
  | evServiceDiscovered
  | evClose
  | evConnect
  | evSetRTS
  | evUnsetRTS
deriving DecidableEq

/-- One step of the event-driven machine. -/
def step (s : VSP) (e : Event) : VSP × List Output :=
  match e with
  | .evWrite data => ((writeData data s).1, (writeData data s).2.1)
  | .evRead maxlen => ((readData maxlen s).1, (readData maxlen s).2.1)
  | .evCharChanged c v => handleCharacteristicChanged c v s
  | .evCharWritten c v => handleCharacteristicWritten c v s
  | .evCharRead c v => handleCharacteristicRead c v s
  | .evDescWritten d v => handleDescriptorWritten d v s
  | .evServiceDiscovered => handleServiceDiscovered s
  | .evClose => close s
  | .evConnect => connectToDevice s
  | .evSetRTS => setRTS s
  | .evUnsetRTS => unsetRTS s

/-- Run a list of events from a state, accumulating outputs in order. -/
def run (s : VSP) : List Event → VSP × List Output
  | [] => (s, [])
  | e :: evs =>
    ((run (step s e).1 evs).1, (step s e).2 ++ (run (step s e).1 evs).2)

/-- Chunks handed to the transport: payloads of characteristic writes to
the RX FIFO, in issue order. -/
def rxChunks (outs : List Output) : List (List Nat) :=
  outs.filterMap fun o => match o with
    | .writeChar .rxFifo v => some v
    | _ => none

/-- Payloads submitted through facade write events, in call order. -/
def writePayloads (evs : List Event) : List (List Nat) :=
  evs.filterMap fun e => match e with
    | .evWrite d => some d
    | _ => none

/-- Number of write confirmations for the RX FIFO characteristic in an
event list. -/
def rxConfirms (evs : List Event) : Nat :=
  (evs.filter fun e => match e with
    | .evCharWritten .rxFifo _ => true
    | _ => false).length

/-- Freshly constructed socket with the manufacturer preselected and a
custom maximum buffer size. -/
def initState (m : Manufacturer) (maxBufferSize : Nat) : VSP :=
  { m := m, maxBufferSize := maxBufferSize }

/-- Canonical state right after a completed handshake: open, connected,
CTS and RTS set, handles resolved, empty buffers. -/
def connState (m : Manufacturer) (maxBufferSize : Nat) : VSP :=
  { m := m, maxBufferSize := maxBufferSize,
    _state := .ConnectedState, hasController := true, hasService := true,
    rxFifoChar := true, txFifoChar := true, modemInChar := true,
    modemOutChar := true, txFifoNotify := true, modemOutNotify := true,
    cts := true, rts := true, isOpen := true }

/-- A trace followed by a CTS assertion and n RX FIFO write confirmations,
which drains the write buffer. -/
def drainTrace (m : Manufacturer) (n : Nat) (evs : List Event) : List Event :=
  evs ++ Event.evCharChanged CharId.modemOut (MODEM_SET_BIT m)
      :: List.replicate n (Event.evCharWritten CharId.rxFifo [])

/-- Dropping the length of a prefix obtained by take recovers the list. -/
lemma take_append_drop_inf {α : Type} (n : Nat) (xs : List α) :
    xs.take n ++ xs.drop (n ⊓ xs.length) = xs := by
  rcases Nat.le_total n xs.length with h | h
  · rw [inf_eq_min, Nat.min_eq_left h, List.take_append_drop]
  · rw [inf_eq_min, Nat.min_eq_right h, List.drop_length, List.append_nil,
        List.take_of_length_le h]

/-- Frame of writeInternal: every field other than writeBuffer is
preserved. -/
lemma writeInternal_frame (s : VSP) :
    (writeInternal s).1.isOpen = s.isOpen ∧
    (writeInternal s).1.maxBufferSize = s.maxBufferSize ∧
    (writeInternal s).1.m = s.m ∧
    (writeInternal s).1.cts = s.cts ∧
    (writeInternal s).1.rts = s.rts ∧
    (writeInternal s).1.readBuffer = s.readBuffer ∧
    (writeInternal s).1._state = s._state := by
  simp only [writeInternal]
  split
  · split
    · exact ⟨rfl, rfl, rfl, rfl, rfl, rfl, rfl⟩
    · exact ⟨rfl, rfl, rfl, rfl, rfl, rfl, rfl⟩
  · exact ⟨rfl, rfl, rfl, rfl, rfl, rfl, rfl⟩

/-- Specification of writeInternal: the chunk it hands to the transport is
the removed prefix of the buffer, and every chunk is non-empty of size at
most PACKET_SIZE. -/
lemma writeInternal_spec (s : VSP) :
    (rxChunks (writeInternal s).2).flatten ++ (writeInternal s).1.writeBuffer
      = s.writeBuffer ∧
    (∀ c ∈ rxChunks (writeInternal s).2, c ≠ [] ∧ c.length ≤ PACKET_SIZE) ∧
    (writeInternal s).1.writeBuffer.length ≤ s.writeBuffer.length := by
  simp only [writeInternal]
  split
  · split
    · next hb =>
      refine ⟨?_, ?_, ?_⟩
      · simp [rxChunks, take_append_drop_inf]
      · intro c hcmem
        simp [rxChunks] at hcmem
        subst hcmem
        constructor
        · exact hb
        · rw [List.length_take]
          exact Nat.min_le_left _ _
      · rw [List.length_drop]
        exact Nat.sub_le _ _
    · simp [rxChunks]
  · simp [rxChunks]

/-- The maximum buffer size and the manufacturer are never changed by any
event. -/
lemma step_frame (s : VSP) (e : Event) :
    (step s e).1.maxBufferSize = s.maxBufferSize ∧ (step s e).1.m = s.m := by
  cases e <;>
    simp only [step, writeData, readData, handleCharacteristicChanged,
      handleCharacteristicWritten, handleCharacteristicRead,
      handleDescriptorWritten, handleServiceDiscovered, close,
      connectToDevice, setRTS, unsetRTS] <;>
    repeat' split
  all_goals
    first
      | exact ⟨rfl, rfl⟩
      | exact ⟨(writeInternal_frame _).2.1, (writeInternal_frame _).2.2.1⟩

/-- Every event preserves the read-buffer bound
readBuffer.length < maxBufferSize. -/
lemma step_readBuffer_lt (s : VSP) (e : Event)
    (h : s.readBuffer.length < s.maxBufferSize) :
    (step s e).1.readBuffer.length < (step s e).1.maxBufferSize := by
  rw [(step_frame s e).1]
  cases e <;>
    simp only [step, writeData, readData, handleCharacteristicChanged,
      handleCharacteristicWritten, handleCharacteristicRead,
      handleDescriptorWritten, handleServiceDiscovered, close,
      connectToDevice, setRTS, unsetRTS] <;>
    repeat' split
  all_goals
    first
      | exact h
      | (rw [(writeInternal_frame _).2.2.2.2.2.1]; exact h)
      | (simp only [List.length_drop]; omega)
      | (simp only [List.length_nil]; omega)
      | (next hov =>
          simp only [List.length_append]
          omega)

/-- The maximum buffer size and the manufacturer are never changed by any
run of events. -/
lemma run_frame (evs : List Event) : ∀ s : VSP,
    (run s evs).1.maxBufferSize = s.maxBufferSize ∧ (run s evs).1.m = s.m := by
  induction evs with
  | nil => intro s; exact ⟨rfl, rfl⟩
  | cons e evs ih =>
    intro s
    have h1 := step_frame s e
    have h2 := ih (step s e).1
    simp only [run]
    exact ⟨h2.1.trans h1.1, h2.2.trans h1.2⟩

/-- Runs preserve the read-buffer bound. -/
lemma run_readBuffer_lt (evs : List Event) : ∀ s : VSP,
    s.readBuffer.length < s.maxBufferSize →
    (run s evs).1.readBuffer.length < (run s evs).1.maxBufferSize := by
  induction evs with
  | nil => intro s h; exact h
  | cons e evs ih =>
    intro s h
    simp only [run]
    exact ih (step s e).1 (step_readBuffer_lt s e h)

/-- Overflowing connected state used to exercise the read-overflow path:
buffer size 21, 15 bytes already buffered. -/
def stateOvfl : VSP :=
  { connState Manufacturer.Laird 21 with readBuffer := List.replicate 15 7 }

/-- C2: at every observable point len(readBuffer) < maxBufferSize, and a
TX FIFO notification whose payload would overflow the bound is dropped
with the buffer unchanged, a clear write to ModemIn, a
CharacteristicReadError surfaced with the read-overflow message, and the
connection left open with the state unchanged. -/
theorem readBuffer_bounded_and_overflow_drop
    (mf : Manufacturer) (mx : Nat) (evs : List Event)
    (hmax : 21 ≤ mx) (s : VSP) (v : List Nat)
    (hov : s.readBuffer.length + v.length + 1 > s.maxBufferSize) :
    (run (initState mf mx) evs).1.readBuffer.length < mx ∧
    (handleCharacteristicChanged CharId.txFifo v s).1.readBuffer = s.readBuffer ∧
    (handleCharacteristicChanged CharId.txFifo v s).2
      = [Output.writeChar CharId.modemIn (MODEM_CLEAR_BIT s.m),
         Output.sigError ServiceError.CharacteristicReadError] ∧
    (handleCharacteristicChanged CharId.txFifo v s).1.isOpen = s.isOpen ∧
    (handleCharacteristicChanged CharId.txFifo v s).1._state = s._state ∧
    (handleCharacteristicChanged CharId.txFifo v s).1.errMsg = ErrMsg.readOverflow := by
  constructor
  · have h0 : (initState mf mx).readBuffer.length < (initState mf mx).maxBufferSize := by
      simp only [initState, List.length_nil]
      omega
    have h := run_readBuffer_lt evs (initState mf mx) h0
    rwa [(run_frame evs (initState mf mx)).1] at h
  · unfold handleCharacteristicChanged
    rw [if_pos rfl, if_pos hov]
    exact ⟨rfl, rfl, rfl, rfl, rfl⟩

/-- Witness for C2 at concrete inputs: a trace of one inbound packet on a
fresh socket keeps the bound, and a 10-byte packet on a 21-byte socket
already holding 15 bytes is dropped with the buffer unchanged. -/
theorem readBuffer_bounded_and_overflow_drop_witness :
    (run (initState Manufacturer.Laird 21)
        [Event.evCharChanged CharId.txFifo [1, 2, 3]]).1.readBuffer.length < 21 ∧
    (handleCharacteristicChanged CharId.txFifo (List.replicate 10 7) stateOvfl).1.readBuffer
      = stateOvfl.readBuffer ∧
    (handleCharacteristicChanged CharId.txFifo (List.replicate 10 7) stateOvfl).1.isOpen
      = true := by
  have h := readBuffer_bounded_and_overflow_drop Manufacturer.Laird 21
    [Event.evCharChanged CharId.txFifo [1, 2, 3]] (by decide)
    stateOvfl (List.replicate 10 7) (by decide)
  exact ⟨h.1, h.2.1, h.2.2.2.1⟩

/-- writeData on an open socket with enough capacity appends the payload
and runs writeInternal, returning the payload length. -/
lemma writeData_success (data : List Nat) (s : VSP)
    (ho : s.isOpen = true)
    (hcap : s.writeBuffer.length + data.length + 1 ≤ s.maxBufferSize) :
    writeData data s
      = ((writeInternal { s with writeBuffer := s.writeBuffer ++ data }).1,
         (writeInternal { s with writeBuffer := s.writeBuffer ++ data }).2,
         (data.length : Int)) := by
  unfold writeData
  rw [if_neg (by simp [ho]), if_neg (by omega)]

/-- Per-event specification for the outbound path: any event other than a
close, taken from an open state, keeps the socket open, and the chunks it
hands to the RX FIFO concatenated with the remaining write buffer extend
the old buffer by exactly the submitted payload; all chunks are non-empty
of size at most PACKET_SIZE. -/
lemma step_spec (s : VSP) (e : Event)
    (ho : s.isOpen = true) (hnc : e ≠ Event.evClose)
    (hcap : ∀ d, e = Event.evWrite d →
      s.writeBuffer.length + d.length + 1 ≤ s.maxBufferSize) :
    (step s e).1.isOpen = true ∧
    (rxChunks (step s e).2).flatten ++ (step s e).1.writeBuffer
      = s.writeBuffer ++ (writePayloads [e]).flatten ∧
    (∀ c ∈ rxChunks (step s e).2, c ≠ [] ∧ c.length ≤ PACKET_SIZE) := by
  cases e with
  | evWrite data =>
    have hc := hcap data rfl
    have hw := writeInternal_spec { s with writeBuffer := s.writeBuffer ++ data }
    have hf := writeInternal_frame { s with writeBuffer := s.writeBuffer ++ data }
    simp only [step, writeData_success data s ho hc]
    refine ⟨?_, ?_, hw.2.1⟩
    · rw [hf.1]; exact ho
    · rw [hw.1]; simp [writePayloads]
  | evRead maxlen =>
    simp only [step, readData, if_neg (by simp [ho] :
      ¬ s.isOpen = false)]
    split
    · exact ⟨ho, by simp [rxChunks, writePayloads], by simp [rxChunks]⟩
    · exact ⟨ho, by simp [rxChunks, writePayloads], by simp [rxChunks]⟩
  | evCharChanged c v =>
    cases c with
    | txFifo =>
      simp only [step, handleCharacteristicChanged, if_pos rfl]
      by_cases hov : s.readBuffer.length + v.length + 1 > s.maxBufferSize
      · rw [if_pos hov]
        exact ⟨ho, by simp [rxChunks, writePayloads], by simp [rxChunks]⟩
      · rw [if_neg hov]
        by_cases hfull :
            (s.readBuffer ++ v).length + PACKET_SIZE + 1 > s.maxBufferSize <;>
          refine ⟨ho, ?_, ?_⟩ <;>
          simp [rxChunks, writePayloads, hfull, ho]
    | modemOut =>
      have hw := writeInternal_spec { s with cts := decide (v = MODEM_SET_BIT s.m) }
      have hf := writeInternal_frame { s with cts := decide (v = MODEM_SET_BIT s.m) }
      simp only [step, handleCharacteristicChanged,
        if_neg (by decide : ¬ (CharId.modemOut = CharId.txFifo))]
      rw [if_pos trivial]
      refine ⟨?_, ?_, hw.2.1⟩
      · rw [hf.1]; exact ho
      · rw [hw.1]; simp [writePayloads]
    | rxFifo =>
      simp only [step, handleCharacteristicChanged,
        if_neg (by decide : ¬ (CharId.rxFifo = CharId.txFifo)),
        if_neg (by decide : ¬ (CharId.rxFifo = CharId.modemOut))]
      exact ⟨ho, by simp [rxChunks, writePayloads], by simp [rxChunks]⟩
    | modemIn =>
      simp only [step, handleCharacteristicChanged,
        if_neg (by decide : ¬ (CharId.modemIn = CharId.txFifo)),
        if_neg (by decide : ¬ (CharId.modemIn = CharId.modemOut))]
      exact ⟨ho, by simp [rxChunks, writePayloads], by simp [rxChunks]⟩
    | brspMode =>
      simp only [step, handleCharacteristicChanged,
        if_neg (by decide : ¬ (CharId.brspMode = CharId.txFifo)),
        if_neg (by decide : ¬ (CharId.brspMode = CharId.modemOut))]
      exact ⟨ho, by simp [rxChunks, writePayloads], by simp [rxChunks]⟩
  | evCharWritten c v =>
    cases c with
    | rxFifo =>
      have hw := writeInternal_spec s
      have hf := writeInternal_frame s
      simp only [step, handleCharacteristicWritten]
      rw [if_pos trivial]
      refine ⟨?_, ?_, hw.2.1⟩
      · rw [hf.1]; exact ho
      · rw [hw.1]; simp [writePayloads]
    | modemIn =>
      simp only [step, handleCharacteristicWritten,
        if_neg (by decide : ¬ (CharId.modemIn = CharId.rxFifo))]
      rw [if_pos trivial]
      split
      · exact ⟨ho, by simp [rxChunks, writePayloads], by simp [rxChunks]⟩
      · exact ⟨ho, by simp [rxChunks, writePayloads], by simp [rxChunks]⟩
    | brspMode =>
      simp only [step, handleCharacteristicWritten,
        if_neg (by decide : ¬ (CharId.brspMode = CharId.rxFifo)),
        if_neg (by decide : ¬ (CharId.brspMode = CharId.modemIn)), if_pos rfl]
      exact ⟨ho, by simp [rxChunks, writePayloads], by simp [rxChunks]⟩
    | txFifo =>
      simp only [step, handleCharacteristicWritten,
        if_neg (by decide : ¬ (CharId.txFifo = CharId.rxFifo)),
        if_neg (by decide : ¬ (CharId.txFifo = CharId.modemIn)),
        if_neg (by decide : ¬ (CharId.txFifo = CharId.brspMode))]
      exact ⟨ho, by simp [rxChunks, writePayloads], by simp [rxChunks]⟩
    | modemOut =>
      simp only [step, handleCharacteristicWritten,
        if_neg (by decide : ¬ (CharId.modemOut = CharId.rxFifo)),
        if_neg (by decide : ¬ (CharId.modemOut = CharId.modemIn)),
        if_neg (by decide : ¬ (CharId.modemOut = CharId.brspMode))]
      exact ⟨ho, by simp [rxChunks, writePayloads], by simp [rxChunks]⟩
  | evCharRead c v =>
    simp only [step, handleCharacteristicRead,
      if_neg (by simp [ho] : ¬ (c = CharId.modemOut ∧ s.isOpen = false))]
    exact ⟨ho, by simp [rxChunks, writePayloads], by simp [rxChunks]⟩
  | evDescWritten d v =>
    simp only [step, handleDescriptorWritten]
    split
    · exact ⟨ho, by simp [rxChunks, writePayloads], by simp [rxChunks]⟩
    · split
      · exact ⟨ho, by simp [rxChunks, writePayloads], by simp [rxChunks]⟩
      · exact ⟨ho, by simp [rxChunks, writePayloads], by simp [rxChunks]⟩
  | evServiceDiscovered =>
    simp only [step, handleServiceDiscovered]
    split
    · exact ⟨ho, by simp [rxChunks, writePayloads], by simp [rxChunks]⟩
    · exact ⟨ho, by simp [rxChunks, writePayloads], by simp [rxChunks]⟩
  | evClose => exact absurd rfl hnc
  | evConnect =>
    simp only [step, connectToDevice, if_pos ho]
    exact ⟨ho, by simp [rxChunks, writePayloads], by simp [rxChunks]⟩
  | evSetRTS =>
    simp only [step, setRTS]
    split
    · exact ⟨ho, by simp [rxChunks, writePayloads], by simp [rxChunks]⟩
    · exact ⟨ho, by simp [rxChunks, writePayloads], by simp [rxChunks]⟩
  | evUnsetRTS =>
    simp only [step, unsetRTS]
    split
    · exact ⟨ho, by simp [rxChunks, writePayloads], by simp [rxChunks]⟩
    · exact ⟨ho, by simp [rxChunks, writePayloads], by simp [rxChunks]⟩

/-- rxChunks distributes over output concatenation. -/
lemma rxChunks_append (o1 o2 : List Output) :
    rxChunks (o1 ++ o2) = rxChunks o1 ++ rxChunks o2 := by
  simp [rxChunks]

/-- writePayloads of a cons splits into head and tail payloads. -/
lemma writePayloads_cons (e : Event) (evs : List Event) :
    (writePayloads (e :: evs)).flatten
      = (writePayloads [e]).flatten ++ (writePayloads evs).flatten := by
  cases e <;> simp [writePayloads]

/-- RX FIFO write confirmations carry no payloads. -/
lemma writePayloads_replicate_confirm (n : Nat) :
    writePayloads (List.replicate n (Event.evCharWritten CharId.rxFifo [])) = [] := by
  induction n with
  | zero => rfl
  | succ n ih =>
    rw [List.replicate_succ]
    simpa [writePayloads] using ih

/-- A write confirmation for the RX FIFO characteristic just retriggers
writeInternal. -/
lemma step_rxConfirm (s : VSP) (v : List Nat) :
    step s (Event.evCharWritten CharId.rxFifo v) = writeInternal s := by
  simp only [step, handleCharacteristicWritten]
  rw [if_pos trivial]

/-- A ModemOut change notification updates cts from the payload and runs
writeInternal. -/
lemma step_ctsSet (s : VSP) (v : List Nat) :
    step s (Event.evCharChanged CharId.modemOut v)
      = writeInternal { s with cts := decide (v = MODEM_SET_BIT s.m) } := by
  simp only [step, handleCharacteristicChanged,
    if_neg (by decide : ¬ (CharId.modemOut = CharId.txFifo))]
  rw [if_pos trivial]

/-- When cts is set and the write buffer is non-empty, writeInternal
strictly shrinks the buffer. -/
lemma writeInternal_progress (s : VSP) (hc : s.cts = true)
    (hb : s.writeBuffer ≠ []) :
    (writeInternal s).1.writeBuffer.length + 1 ≤ s.writeBuffer.length := by
  have htake : s.writeBuffer.take PACKET_SIZE ≠ [] := by
    simp [List.take_eq_nil_iff, PACKET_SIZE, hb]
  have hpos : 0 < s.writeBuffer.length := List.length_pos.mpr hb
  simp only [writeInternal]
  rw [if_pos hc, if_pos htake]
  simp only [List.length_drop, List.length_take, PACKET_SIZE]
  omega

/-- n RX FIFO write confirmations drain a buffer of at most n bytes. -/
lemma drain_empties (n : Nat) : ∀ s : VSP, s.cts = true →
    s.writeBuffer.length ≤ n →
    (run s (List.replicate n (Event.evCharWritten CharId.rxFifo []))).1.writeBuffer
      = [] := by
  induction n with
  | zero =>
    intro s _ hlen
    simp only [List.replicate_zero, run]
    exact List.eq_nil_of_length_eq_zero (Nat.le_zero.mp hlen)
  | succ n ih =>
    intro s hc hlen
    simp only [List.replicate_succ, run]
    rw [step_rxConfirm]
    apply ih
    · rw [(writeInternal_frame s).2.2.2.1]
      exact hc
    · by_cases hb : s.writeBuffer = []
      · have h2 := (writeInternal_spec s).2.2
        rw [hb] at h2
        simp only [List.length_nil, Nat.le_zero] at h2
        omega
      · have h2 := writeInternal_progress s hc hb
        omega

/-- Invariant of the outbound path over any close-free run from an open
state with enough total capacity: the socket stays open, the chunks handed
to the RX FIFO concatenated with the remaining buffer extend the starting
buffer by exactly the submitted payloads, and all chunks are non-empty of
size at most PACKET_SIZE. -/
lemma run_write_invariant (evs : List Event) : ∀ s : VSP,
    s.isOpen = true →
    (∀ e ∈ evs, e ≠ Event.evClose) →
    s.writeBuffer.length + (writePayloads evs).flatten.length + 1
      ≤ s.maxBufferSize →
    (run s evs).1.isOpen = true ∧
    (rxChunks (run s evs).2).flatten ++ (run s evs).1.writeBuffer
      = s.writeBuffer ++ (writePayloads evs).flatten ∧
    (∀ c ∈ rxChunks (run s evs).2, c ≠ [] ∧ c.length ≤ PACKET_SIZE) := by
  induction evs with
  | nil =>
    intro s ho _ _
    exact ⟨ho, by simp [run, rxChunks, writePayloads], by simp [run, rxChunks]⟩
  | cons e evs ih =>
    intro s ho hnc hcap
    have hsplit : (writePayloads (e :: evs)).flatten.length
        = (writePayloads [e]).flatten.length + (writePayloads evs).flatten.length := by
      rw [writePayloads_cons, List.length_append]
    have hcap1 : ∀ d, e = Event.evWrite d →
        s.writeBuffer.length + d.length + 1 ≤ s.maxBufferSize := by
      intro d hd
      subst hd
      have hd1 : (writePayloads [Event.evWrite d]).flatten.length = d.length := by
        simp [writePayloads]
      omega
    have hs := step_spec s e ho (hnc e (List.mem_cons_self e evs)) hcap1
    have hlen : (step s e).1.writeBuffer.length
        ≤ s.writeBuffer.length + (writePayloads [e]).flatten.length := by
      have h2 := congrArg List.length hs.2.1
      simp only [List.length_append] at h2
      omega
    have hmax : (step s e).1.maxBufferSize = s.maxBufferSize := (step_frame s e).1
    have hcap2 : (step s e).1.writeBuffer.length
        + (writePayloads evs).flatten.length + 1 ≤ (step s e).1.maxBufferSize := by
      rw [hmax]
      omega
    have hih := ih (step s e).1 hs.1
      (fun e2 h2 => hnc e2 (List.mem_cons_of_mem _ h2)) hcap2
    refine ⟨hih.1, ?_, ?_⟩
    · simp only [run, rxChunks_append, List.flatten_append]
      rw [List.append_assoc, hih.2.1, ← List.append_assoc, hs.2.1,
          List.append_assoc, ← writePayloads_cons]
    · intro c hcmem
      simp only [run, rxChunks_append, List.mem_append] at hcmem
      rcases hcmem with h | h
      · exact hs.2.2 c h
      · exact hih.2.2 c h

/-- Running a concatenation of event lists composes the final states and
appends the outputs. -/
lemma run_append (l1 l2 : List Event) : ∀ s : VSP,
    run s (l1 ++ l2)
      = ((run (run s l1).1 l2).1, (run s l1).2 ++ (run (run s l1).1 l2).2) := by
  induction l1 with
  | nil => intro s; simp [run]
  | cons e l1 ih =>
    intro s
    simp only [List.cons_append, run, List.append_eq, ih (step s e).1,
      List.append_assoc]

/-- C1: over any close-free trace of write calls interleaved with
arbitrary transport events, totalling at most maxBufferSize - 1 bytes (so
every write succeeds), followed by a CTS assertion and enough RX FIFO
write confirmations, the chunks handed to the transport concatenate to
exactly the submitted bytes in call order, every chunk is at most
PACKET_SIZE bytes, and the write buffer fully drains. -/
theorem write_chunks_deliver_all (mf : Manufacturer) (mx n : Nat)
    (evs : List Event)
    (hnc : ∀ e ∈ evs, e ≠ Event.evClose)
    (hcap : (writePayloads evs).flatten.length + 1 ≤ mx)
    (hn : (writePayloads evs).flatten.length ≤ n) :
    (rxChunks (run (connState mf mx) (drainTrace mf n evs)).2).flatten
      = (writePayloads evs).flatten ∧
    (∀ c ∈ rxChunks (run (connState mf mx) (drainTrace mf n evs)).2,
      c.length ≤ PACKET_SIZE) ∧
    (run (connState mf mx) (drainTrace mf n evs)).1.writeBuffer = [] := by
  have h0 : (connState mf mx).isOpen = true := rfl
  have hbuf0 : (connState mf mx).writeBuffer = [] := rfl
  have hcap0 : (connState mf mx).writeBuffer.length
      + (writePayloads evs).flatten.length + 1
      ≤ (connState mf mx).maxBufferSize := by
    simp only [connState, List.length_nil]
    omega
  have hA := run_write_invariant evs (connState mf mx) h0 hnc hcap0
  have hmA : (run (connState mf mx) evs).1.m = mf :=
    (run_frame evs (connState mf mx)).2
  have hmaxA : (run (connState mf mx) evs).1.maxBufferSize = mx :=
    (run_frame evs (connState mf mx)).1
  have hlenA : (run (connState mf mx) evs).1.writeBuffer.length
      ≤ (writePayloads evs).flatten.length := by
    have h2 := congrArg List.length hA.2.1
    rw [hbuf0] at h2
    simp only [List.length_append, List.nil_append] at h2
    omega
  have hB := step_spec (run (connState mf mx) evs).1
    (Event.evCharChanged CharId.modemOut (MODEM_SET_BIT mf)) hA.1
    (fun h => Event.noConfusion h) (fun d hd => Event.noConfusion hd)
  have hwpB : (writePayloads
      [Event.evCharChanged CharId.modemOut (MODEM_SET_BIT mf)]).flatten = [] := by
    simp [writePayloads]
  have hBeq : (rxChunks ((step (run (connState mf mx) evs).1
        (Event.evCharChanged CharId.modemOut (MODEM_SET_BIT mf))).2)).flatten
      ++ (step (run (connState mf mx) evs).1
        (Event.evCharChanged CharId.modemOut (MODEM_SET_BIT mf))).1.writeBuffer
      = (run (connState mf mx) evs).1.writeBuffer := by
    have h2 := hB.2.1
    rw [hwpB, List.append_nil] at h2
    exact h2
  have hctsB : (step (run (connState mf mx) evs).1
      (Event.evCharChanged CharId.modemOut (MODEM_SET_BIT mf))).1.cts = true := by
    rw [step_ctsSet]
    rw [(writeInternal_frame _).2.2.2.1]
    simp [hmA]
  have hmaxB : (step (run (connState mf mx) evs).1
      (Event.evCharChanged CharId.modemOut (MODEM_SET_BIT mf))).1.maxBufferSize
      = mx :=
    ((step_frame _ _).1).trans hmaxA
  have hlenB : (step (run (connState mf mx) evs).1
      (Event.evCharChanged CharId.modemOut (MODEM_SET_BIT mf))).1.writeBuffer.length
      ≤ (writePayloads evs).flatten.length := by
    have h2 := congrArg List.length hBeq
    simp only [List.length_append] at h2
    omega
  have hncC : ∀ e ∈ List.replicate n (Event.evCharWritten CharId.rxFifo []),
      e ≠ Event.evClose := by
    intro e he
    rw [List.eq_of_mem_replicate he]
    exact fun h => Event.noConfusion h
  have hcapC : (step (run (connState mf mx) evs).1
        (Event.evCharChanged CharId.modemOut (MODEM_SET_BIT mf))).1.writeBuffer.length
      + (writePayloads
          (List.replicate n (Event.evCharWritten CharId.rxFifo []))).flatten.length
      + 1
      ≤ (step (run (connState mf mx) evs).1
          (Event.evCharChanged CharId.modemOut (MODEM_SET_BIT mf))).1.maxBufferSize := by
    rw [writePayloads_replicate_confirm, hmaxB]
    simp only [List.flatten_nil, List.length_nil]
    omega
  have hC := run_write_invariant
    (List.replicate n (Event.evCharWritten CharId.rxFifo []))
    (step (run (connState mf mx) evs).1
      (Event.evCharChanged CharId.modemOut (MODEM_SET_BIT mf))).1
    hB.1 hncC hcapC
  have hdrain := drain_empties n
    (step (run (connState mf mx) evs).1
      (Event.evCharChanged CharId.modemOut (MODEM_SET_BIT mf))).1
    hctsB (le_trans hlenB hn)
  have hCeq : (rxChunks (run (step (run (connState mf mx) evs).1
        (Event.evCharChanged CharId.modemOut (MODEM_SET_BIT mf))).1
        (List.replicate n (Event.evCharWritten CharId.rxFifo []))).2).flatten
      = (step (run (connState mf mx) evs).1
          (Event.evCharChanged CharId.modemOut (MODEM_SET_BIT mf))).1.writeBuffer := by
    have h2 := hC.2.1
    rw [writePayloads_replicate_confirm] at h2
    simp only [List.flatten_nil, List.append_nil] at h2
    rw [hdrain, List.append_nil] at h2
    exact h2
  simp only [drainTrace, run_append, run]
  refine ⟨?_, ?_, hdrain⟩
  · rw [rxChunks_append, rxChunks_append, List.flatten_append,
        List.flatten_append, hCeq, hBeq]
    have h3 := hA.2.1
    rw [hbuf0, List.nil_append] at h3
    exact h3
  · intro c hcmem
    rw [rxChunks_append, rxChunks_append] at hcmem
    simp only [List.mem_append] at hcmem
    rcases hcmem with h | h | h
    · exact (hA.2.2 c h).2
    · exact (hB.2.2 c h).2
    · exact (hC.2.2 c h).2

/-- Witness for C1 at a concrete trace: one 3-byte write on a 25-byte
socket, drained with 3 confirmations, delivers exactly those bytes. -/
theorem write_chunks_deliver_all_witness :
    (rxChunks (run (connState Manufacturer.Laird 25)
        (drainTrace Manufacturer.Laird 3 [Event.evWrite [1, 2, 3]])).2).flatten
      = [1, 2, 3] ∧
    (run (connState Manufacturer.Laird 25)
        (drainTrace Manufacturer.Laird 3 [Event.evWrite [1, 2, 3]])).1.writeBuffer
      = [] := by
  have h := write_chunks_deliver_all Manufacturer.Laird 25 3
    [Event.evWrite [1, 2, 3]] (by decide) (by decide) (by decide)
  exact ⟨h.1.trans (by decide), h.2.2⟩

/-- writeInternal issues at most one RX FIFO chunk. -/
lemma writeInternal_chunks_le (s : VSP) :
    (rxChunks (writeInternal s).2).length ≤ 1 := by
  simp only [writeInternal]
  split
  · split
    · simp [rxChunks]
    · simp [rxChunks]
  · simp [rxChunks]

/-- C4 counterexample: two facade writes with CTS set and no intervening
write confirmation issue two RX FIFO transport writes, so more than one
outbound characteristic write is outstanding, refuting the claim that a
new chunk is handed over only after the previous write confirmation. -/
theorem single_outstanding_write_cex :
    rxConfirms [Event.evWrite [1], Event.evWrite [2]] + 1
      < (rxChunks (run (connState Manufacturer.Laird 4096)
          [Event.evWrite [1], Event.evWrite [2]]).2).length := by
  decide

/-- C4 amended: each processed event hands at most one chunk to the
transport, but the send path is gated only on cts, not on the previous
write confirmation, so several outbound writes can be outstanding. -/
theorem at_most_one_chunk_per_event (s : VSP) (e : Event) :
    (rxChunks (step s e).2).length ≤ 1 := by
  cases e with
  | evWrite data =>
    simp only [step, writeData]
    split
    · simp [rxChunks]
    · split
      · simp [rxChunks]
      · exact writeInternal_chunks_le _
  | evRead maxlen =>
    simp only [step, readData]
    split
    · simp [rxChunks]
    · split
      · simp [rxChunks]
      · simp [rxChunks]
  | evCharChanged c v =>
    cases c with
    | txFifo =>
      simp only [step, handleCharacteristicChanged]
      rw [if_pos trivial]
      split
      · simp [rxChunks]
      · rw [rxChunks_append]
        repeat' split
        all_goals simp [rxChunks]
    | modemOut =>
      rw [step_ctsSet]
      exact writeInternal_chunks_le _
    | rxFifo =>
      simp only [step, handleCharacteristicChanged,
        if_neg (by decide : ¬ (CharId.rxFifo = CharId.txFifo)),
        if_neg (by decide : ¬ (CharId.rxFifo = CharId.modemOut))]
      simp [rxChunks]
    | modemIn =>
      simp only [step, handleCharacteristicChanged,
        if_neg (by decide : ¬ (CharId.modemIn = CharId.txFifo)),
        if_neg (by decide : ¬ (CharId.modemIn = CharId.modemOut))]
      simp [rxChunks]
    | brspMode =>
      simp only [step, handleCharacteristicChanged,
        if_neg (by decide : ¬ (CharId.brspMode = CharId.txFifo)),
        if_neg (by decide : ¬ (CharId.brspMode = CharId.modemOut))]
      simp [rxChunks]
  | evCharWritten c v =>
    cases c with
    | rxFifo =>
      rw [step_rxConfirm]
      exact writeInternal_chunks_le _
    | modemIn =>
      simp only [step, handleCharacteristicWritten,
        if_neg (by decide : ¬ (CharId.modemIn = CharId.rxFifo))]
      rw [if_pos trivial]
      split
      · simp [rxChunks]
      · simp [rxChunks]
    | brspMode =>
      simp only [step, handleCharacteristicWritten,
        if_neg (by decide : ¬ (CharId.brspMode = CharId.rxFifo)),
        if_neg (by decide : ¬ (CharId.brspMode = CharId.modemIn))]
      rw [if_pos trivial]
      simp [rxChunks]
    | txFifo =>
      simp only [step, handleCharacteristicWritten,
        if_neg (by decide : ¬ (CharId.txFifo = CharId.rxFifo)),
        if_neg (by decide : ¬ (CharId.txFifo = CharId.modemIn)),
        if_neg (by decide : ¬ (CharId.txFifo = CharId.brspMode))]
      simp [rxChunks]
    | modemOut =>
      simp only [step, handleCharacteristicWritten,
        if_neg (by decide : ¬ (CharId.modemOut = CharId.rxFifo)),
        if_neg (by decide : ¬ (CharId.modemOut = CharId.modemIn)),
        if_neg (by decide : ¬ (CharId.modemOut = CharId.brspMode))]
      simp [rxChunks]
  | evCharRead c v =>
    simp only [step, handleCharacteristicRead]
    split
    · rw [rxChunks_append]
      repeat' split
      all_goals simp [rxChunks]
    · simp [rxChunks]
  | evDescWritten d v =>
    simp only [step, handleDescriptorWritten]
    split
    · simp [rxChunks]
    · split
      · simp [rxChunks]
      · simp [rxChunks]
  | evServiceDiscovered =>
    simp only [step, handleServiceDiscovered]
    split
    · simp [rxChunks]
    · simp [rxChunks]
  | evClose =>
    simp only [step, close]
    split
    · simp [rxChunks]
    · simp [rxChunks]
  | evConnect =>
    simp only [step, connectToDevice]
    split
    · simp [rxChunks]
    · simp [rxChunks]
  | evSetRTS =>
    simp only [step, setRTS]
    split
    · simp [rxChunks]
    · simp [rxChunks]
  | evUnsetRTS =>
    simp only [step, unsetRTS]
    split
    · simp [rxChunks]
    · simp [rxChunks]

/-- C5: a write on an open socket overflows exactly when
len(writeBuffer) + len + 1 > maxBufferSize; on overflow it returns -1,
surfaces the write-overflow error and leaves both buffers exactly
unchanged; otherwise it returns len and the appended bytes are accounted
for by the issued chunks plus the remaining buffer. -/
theorem write_overflow_atomic (s : VSP) (data : List Nat)
    (ho : s.isOpen = true) :
    (s.writeBuffer.length + data.length + 1 > s.maxBufferSize →
      (writeData data s).2.2 = -1 ∧
      (writeData data s).1.writeBuffer = s.writeBuffer ∧
      (writeData data s).1.readBuffer = s.readBuffer ∧
      (writeData data s).1.errMsg = ErrMsg.writeOverflow ∧
      (writeData data s).2.1 = [Output.sigError ServiceError.OperationError]) ∧
    (s.writeBuffer.length + data.length + 1 ≤ s.maxBufferSize →
      (writeData data s).2.2 = (data.length : Int) ∧
      (rxChunks (writeData data s).2.1).flatten
        ++ (writeData data s).1.writeBuffer
        = s.writeBuffer ++ data) := by
  constructor
  · intro hov
    unfold writeData
    rw [if_neg (by simp [ho]), if_pos hov]
    exact ⟨rfl, rfl, rfl, rfl, rfl⟩
  · intro hle
    rw [writeData_success data s ho (by omega)]
    exact ⟨rfl, (writeInternal_spec _).1⟩

/-- Witness for C5 at the spec scenario: writing 4097 bytes at once on a
default-size (4096) socket is rejected with the buffer unchanged and the
write-overflow error surfaced. -/
theorem write_overflow_atomic_witness :
    (writeData (List.replicate 4097 0) (connState Manufacturer.Laird 4096)).2.2
      = -1 ∧
    (writeData (List.replicate 4097 0) (connState Manufacturer.Laird 4096)).1.writeBuffer
      = [] ∧
    (writeData (List.replicate 4097 0) (connState Manufacturer.Laird 4096)).1.errMsg
      = ErrMsg.writeOverflow := by
  have h := (write_overflow_atomic (connState Manufacturer.Laird 4096)
    (List.replicate 4097 0) rfl).1
    (by simp only [connState, List.length_replicate, List.length_nil]; omega)
  exact ⟨h.1, h.2.1, h.2.2.2.1⟩

/-- C6: processing a TX FIFO notification of at most PACKET_SIZE bytes
issues a clear write to ModemIn exactly when the post-event buffer leaves
no room for another packet, and a consumer read issues a set write to
ModemIn exactly when rts is currently deasserted and the post-drain
buffer again has room for a packet. -/
theorem rts_deassert_reassert_exact (s : VSP) (v : List Nat) (maxlen : Nat)
    (hv : v.length ≤ PACKET_SIZE) (ho : s.isOpen = true) :
    (Output.writeChar CharId.modemIn (MODEM_CLEAR_BIT s.m)
        ∈ (handleCharacteristicChanged CharId.txFifo v s).2
      ↔ (handleCharacteristicChanged CharId.txFifo v s).1.readBuffer.length
          + PACKET_SIZE + 1 > s.maxBufferSize) ∧
    (Output.writeChar CharId.modemIn (MODEM_SET_BIT s.m) ∈ (readData maxlen s).2.1
      ↔ (s.rts = false ∧
          (readData maxlen s).1.readBuffer.length + PACKET_SIZE + 1
            ≤ s.maxBufferSize)) := by
  constructor
  · simp only [handleCharacteristicChanged]
    rw [if_pos trivial]
    by_cases hov : s.maxBufferSize < s.readBuffer.length + v.length + 1
    · rw [if_pos hov]
      constructor
      · intro _
        show s.maxBufferSize < s.readBuffer.length + PACKET_SIZE + 1
        simp only [PACKET_SIZE] at hv ⊢
        omega
      · intro _
        simp
    · rw [if_neg hov]
      by_cases hfull :
          s.maxBufferSize < (s.readBuffer ++ v).length + PACKET_SIZE + 1
      · rw [if_pos hfull]
        constructor
        · intro _
          exact hfull
        · intro _
          simp
      · rw [if_neg hfull]
        constructor
        · intro hmem
          exfalso
          simp only [List.nil_append] at hmem
          split at hmem <;> simp at hmem
        · intro hcond
          exact absurd hcond hfull
  · simp only [readData]
    rw [if_neg (by simp [ho])]
    by_cases hcond : s.rts = false ∧
        (s.readBuffer.drop (s.readBuffer.take maxlen).length).length
          + PACKET_SIZE + 1 ≤ s.maxBufferSize
    · rw [if_pos hcond]
      constructor
      · intro _
        exact ⟨hcond.1, hcond.2⟩
      · intro _
        simp
    · rw [if_neg hcond]
      constructor
      · intro hmem
        simp at hmem
      · intro hc
        exact absurd ⟨hc.1, hc.2⟩ hcond

/-- State used to exercise C6: connected socket with buffer size 30
holding four inbound bytes. -/
def stateC6 : VSP :=
  { connState Manufacturer.Laird 30 with readBuffer := [5, 6, 7, 8] }

/-- Witness for C6 at concrete inputs: a 1-byte notification on stateC6
and a 2-byte consumer read, with both iff conditions evaluated. -/
theorem rts_deassert_reassert_exact_witness :
    (Output.writeChar CharId.modemIn (MODEM_CLEAR_BIT stateC6.m)
        ∈ (handleCharacteristicChanged CharId.txFifo [9] stateC6).2
      ↔ (handleCharacteristicChanged CharId.txFifo [9] stateC6).1.readBuffer.length
          + PACKET_SIZE + 1 > stateC6.maxBufferSize) ∧
    (Output.writeChar CharId.modemIn (MODEM_SET_BIT stateC6.m)
        ∈ (readData 2 stateC6).2.1
      ↔ (stateC6.rts = false ∧
          (readData 2 stateC6).1.readBuffer.length + PACKET_SIZE + 1
            ≤ stateC6.maxBufferSize)) :=
  rts_deassert_reassert_exact stateC6 [9] 2 (by decide) rfl

/-- C3 counterexample: close() invoked while Connecting (the facade is not
yet open) is a no-op: no transport disconnect is requested and the state
remains Connecting, refuting the claim that close() proceeds through the
teardown from any state. -/
theorem close_while_connecting_cex :
    ((connectToDevice (initState Manufacturer.Laird 4096)).1._state
        = SocketState.ConnectingState) ∧
    close ((connectToDevice (initState Manufacturer.Laird 4096)).1)
      = ((connectToDevice (initState Manufacturer.Laird 4096)).1, []) := by
  decide

/-- C3 amended: close() proceeds through the teardown only when the
facade is open; while not open (in particular while Connecting) it is a
no-op.  When open, close() requests the transport disconnect, ends in
Unconnected with empty buffers, and a subsequent connect() restarts the
handshake with fresh buffers. -/
theorem close_only_when_open (s : VSP) :
    (s.isOpen = false → close s = (s, [])) ∧
    (s.isOpen = true →
      Output.disconnectDevice ∈ (close s).2 ∧
      (close s).1._state = SocketState.UnconnectedState ∧
      (close s).1.isOpen = false ∧
      (close s).1.readBuffer = [] ∧
      (close s).1.writeBuffer = [] ∧
      (connectToDevice (close s).1).1._state = SocketState.ConnectingState ∧
      (connectToDevice (close s).1).1.readBuffer = [] ∧
      (connectToDevice (close s).1).1.writeBuffer = [] ∧
      Output.connectDevice ∈ (connectToDevice (close s).1).2) := by
  constructor
  · intro h
    unfold close
    rw [if_neg (by simp [h])]
  · intro h
    unfold close connectToDevice
    rw [if_pos h]
    simp

/-- Witness for C3 applied at a closed and at an open concrete state. -/
theorem close_only_when_open_witness :
    close (initState Manufacturer.Laird 4096)
      = (initState Manufacturer.Laird 4096, []) ∧
    Output.disconnectDevice ∈ (close (connState Manufacturer.Laird 4096)).2 ∧
    (connectToDevice (close (connState Manufacturer.Laird 4096)).1).1._state
      = SocketState.ConnectingState := by
  have h1 := (close_only_when_open (initState Manufacturer.Laird 4096)).1 rfl
  have h2 := (close_only_when_open (connState Manufacturer.Laird 4096)).2 rfl
  exact ⟨h1, h2.1, h2.2.2.2.2.2.1⟩

/-- C7 counterexample: after close() on an open socket the resolved RX
FIFO characteristic handle is still resolved, not reset to its
pre-connection default, refuting the claim that close() resets the
resolved characteristics. -/
theorem close_keeps_resolved_chars_cex :
    (connState Manufacturer.Laird 4096).isOpen = true ∧
    (close (connState Manufacturer.Laird 4096)).1.rxFifoChar = true ∧
    (initState Manufacturer.Laird 4096).rxFifoChar = false := by
  decide

/-- C7 amended: close() is a no-op when not open; when open it emits, in
order, the Closing state change, end-of-stream, the transport disconnect
request, the facade close, the Unconnected state change and disconnected,
and resets the transport handle, service, cts, rts and both buffers — but
not the resolved characteristic or descriptor handles. -/
theorem close_spec (s : VSP) :
    (s.isOpen = false → close s = (s, [])) ∧
    (s.isOpen = true →
      close s = ({ s with
                    _state := SocketState.UnconnectedState,
                    hasController := false, hasService := false,
                    cts := false, rts := false,
                    readBuffer := [], writeBuffer := [], isOpen := false },
                 [Output.sigStateChanged SocketState.ClosingState,
                  Output.sigReadChannelFinished, Output.disconnectDevice,
                  Output.ioClose,
                  Output.sigStateChanged SocketState.UnconnectedState,
                  Output.sigDisconnected])) := by
  constructor
  · intro h
    unfold close
    rw [if_neg (by simp [h])]
  · intro h
    unfold close
    rw [if_pos h]

/-- Witness for C7 at concrete closed and open states; the resolved RX
FIFO handle survives the teardown. -/
theorem close_spec_witness :
    close (initState Manufacturer.BlueRadios 4096)
      = (initState Manufacturer.BlueRadios 4096, []) ∧
    (close (connState Manufacturer.BlueRadios 4096)).1._state
      = SocketState.UnconnectedState ∧
    (close (connState Manufacturer.BlueRadios 4096)).1.rxFifoChar = true := by
  have h1 := (close_spec (initState Manufacturer.BlueRadios 4096)).1 rfl
  have h2 := (close_spec (connState Manufacturer.BlueRadios 4096)).2 rfl
  refine ⟨h1, by rw [h2], ?_⟩
  rw [h2]
  rfl

/-- writeInternal never writes a descriptor. -/
lemma writeDesc_not_in_writeInternal (s : VSP) (d : DescId) (v : List Nat) :
    Output.writeDesc d v ∉ (writeInternal s).2 := by
  simp only [writeInternal]
  split
  · split
    · simp
    · simp
  · simp

/-- C8: on service discovery, VariantB (BlueRadios) writes the mode-switch
payload to the mode characteristic and does not enable TX FIFO
notifications, while VariantA (Laird) enables them directly; and the only
events whose handler enables TX FIFO notifications are the write
confirmation of the mode-switch characteristic and, for Laird only, the
service-discovered event — so for BlueRadios the notify-on descriptor
write happens only after the mode-switch write confirmation. -/
theorem brsp_mode_switch_gates_notify (s : VSP) (e : Event) :
    ((step s Event.evServiceDiscovered).2
      = if s.m = Manufacturer.BlueRadios
        then [Output.writeChar CharId.brspMode BRSP_MODE_DATA]
        else [Output.writeDesc DescId.txFifoNotify DESC_NOTIFY_ON]) ∧
    (Output.writeDesc DescId.txFifoNotify DESC_NOTIFY_ON ∈ (step s e).2 →
      (∃ v, e = Event.evCharWritten CharId.brspMode v) ∨
      (e = Event.evServiceDiscovered ∧ s.m = Manufacturer.Laird)) := by
  constructor
  · by_cases hm : s.m = Manufacturer.BlueRadios <;>
      simp [step, handleServiceDiscovered, hm]
  · intro hmem
    cases e with
    | evWrite data =>
      exfalso
      simp only [step, writeData] at hmem
      split at hmem
      · simp at hmem
      · split at hmem
        · simp at hmem
        · exact writeDesc_not_in_writeInternal _ _ _ hmem
    | evRead maxlen =>
      exfalso
      simp only [step, readData] at hmem
      split at hmem
      · simp at hmem
      · split at hmem <;> simp at hmem
    | evCharChanged c v =>
      exfalso
      cases c with
      | txFifo =>
        simp only [step, handleCharacteristicChanged] at hmem
        rw [if_pos trivial] at hmem
        split at hmem
        · simp at hmem
        · simp only [List.mem_append] at hmem
          rcases hmem with h | h
          · split at h <;> simp at h
          · split at h <;> simp at h
      | modemOut =>
        rw [step_ctsSet] at hmem
        exact writeDesc_not_in_writeInternal _ _ _ hmem
      | rxFifo =>
        simp only [step, handleCharacteristicChanged,
          if_neg (by decide : ¬ (CharId.rxFifo = CharId.txFifo)),
          if_neg (by decide : ¬ (CharId.rxFifo = CharId.modemOut))] at hmem
        simp at hmem
      | modemIn =>
        simp only [step, handleCharacteristicChanged,
          if_neg (by decide : ¬ (CharId.modemIn = CharId.txFifo)),
          if_neg (by decide : ¬ (CharId.modemIn = CharId.modemOut))] at hmem
        simp at hmem
      | brspMode =>
        simp only [step, handleCharacteristicChanged,
          if_neg (by decide : ¬ (CharId.brspMode = CharId.txFifo)),
          if_neg (by decide : ¬ (CharId.brspMode = CharId.modemOut))] at hmem
        simp at hmem
    | evCharWritten c v =>
      cases c with
      | brspMode => exact Or.inl ⟨v, rfl⟩
      | rxFifo =>
        exfalso
        rw [step_rxConfirm] at hmem
        exact writeDesc_not_in_writeInternal _ _ _ hmem
      | modemIn =>
        exfalso
        simp only [step, handleCharacteristicWritten,
          if_neg (by decide : ¬ (CharId.modemIn = CharId.rxFifo))] at hmem
        rw [if_pos trivial] at hmem
        split at hmem <;> simp at hmem
      | txFifo =>
        exfalso
        simp only [step, handleCharacteristicWritten,
          if_neg (by decide : ¬ (CharId.txFifo = CharId.rxFifo)),
          if_neg (by decide : ¬ (CharId.txFifo = CharId.modemIn)),
          if_neg (by decide : ¬ (CharId.txFifo = CharId.brspMode))] at hmem
        simp at hmem
      | modemOut =>
        exfalso
        simp only [step, handleCharacteristicWritten,
          if_neg (by decide : ¬ (CharId.modemOut = CharId.rxFifo)),
          if_neg (by decide : ¬ (CharId.modemOut = CharId.modemIn)),
          if_neg (by decide : ¬ (CharId.modemOut = CharId.brspMode))] at hmem
        simp at hmem
    | evCharRead c v =>
      exfalso
      simp only [step, handleCharacteristicRead] at hmem
      split at hmem
      · simp only [List.mem_append] at hmem
        rcases hmem with h | h
        · simp at h
        · split at h <;> simp at h
      · simp at hmem
    | evDescWritten d v =>
      exfalso
      simp only [step, handleDescriptorWritten] at hmem
      split at hmem
      · simp at hmem
      · split at hmem <;> simp at hmem
    | evServiceDiscovered =>
      by_cases hm : s.m = Manufacturer.BlueRadios
      · exfalso
        simp only [step, handleServiceDiscovered] at hmem
        rw [if_pos hm] at hmem
        simp at hmem
      · right
        refine ⟨rfl, ?_⟩
        cases hm2 : s.m
        · rfl
        · exact absurd hm2 hm
    | evClose =>
      exfalso
      simp only [step, close] at hmem
      split at hmem <;> simp at hmem
    | evConnect =>
      exfalso
      simp only [step, connectToDevice] at hmem
      split at hmem <;> simp at hmem
    | evSetRTS =>
      exfalso
      simp only [step, setRTS] at hmem
      split at hmem <;> simp at hmem
    | evUnsetRTS =>
      exfalso
      simp only [step, unsetRTS] at hmem
      split at hmem <;> simp at hmem

/-- Witness for C8: on a BlueRadios connection the discovery step writes
only the mode switch, and the notify-on hypothesis holds at the
mode-switch write confirmation. -/
theorem brsp_mode_switch_gates_notify_witness :
    ((step (connState Manufacturer.BlueRadios 4096)
        Event.evServiceDiscovered).2
      = [Output.writeChar CharId.brspMode BRSP_MODE_DATA]) ∧
    ((∃ v, Event.evCharWritten CharId.brspMode [1]
        = Event.evCharWritten CharId.brspMode v) ∨
      (Event.evCharWritten CharId.brspMode [1] = Event.evServiceDiscovered ∧
        (connState Manufacturer.BlueRadios 4096).m = Manufacturer.Laird)) := by
  have h := brsp_mode_switch_gates_notify
    (connState Manufacturer.BlueRadios 4096)
    (Event.evCharWritten CharId.brspMode [1])
  refine ⟨?_, h.2 (by decide)⟩
  rw [h.1]
  decide

/-- Connected state with RTS deasserted, used against C9. -/
def stateRtsOff : VSP :=
  { connState Manufacturer.Laird 4096 with rts := false }

/-- C9 counterexample: unsetRTS on a state whose rts flag is already
false issues no transport write at all, refuting the claim that
deassert-RTS unconditionally issues the clear write to ModemIn. -/
theorem unsetRTS_unconditional_cex :
    stateRtsOff.rts = false ∧ unsetRTS stateRtsOff = (stateRtsOff, []) := by
  decide

/-- C9 amended: unsetRTS issues the clear write exactly when rts is
currently set (with no capacity check), and setRTS is a silent no-op —
no write, state unchanged, no error — whenever the read buffer lacks room
for another packet; it writes the set value exactly when rts is clear and
capacity suffices. -/
theorem manual_rts_ops (s : VSP) :
    (unsetRTS s
      = if s.rts then (s, [Output.writeChar CharId.modemIn (MODEM_CLEAR_BIT s.m)])
        else (s, [])) ∧
    (s.readBuffer.length + PACKET_SIZE + 1 > s.maxBufferSize →
      setRTS s = (s, [])) ∧
    (Output.writeChar CharId.modemIn (MODEM_SET_BIT s.m) ∈ (setRTS s).2
      ↔ (s.rts = false ∧
          s.readBuffer.length + PACKET_SIZE + 1 ≤ s.maxBufferSize)) := by
  refine ⟨rfl, ?_, ?_⟩
  · intro hov
    unfold setRTS
    rw [if_neg (by omega)]
  · unfold setRTS
    by_cases hc : s.rts = false ∧
        s.readBuffer.length + PACKET_SIZE + 1 ≤ s.maxBufferSize
    · rw [if_pos hc]
      simp [hc]
    · rw [if_neg hc]
      simp [hc]

/-- Connected state with a nearly full read buffer and RTS deasserted,
used for the C9 witness. -/
def stateFull : VSP :=
  { connState Manufacturer.Laird 25 with
      readBuffer := List.replicate 10 0, rts := false }

/-- Witness for C9: with rts clear, unsetRTS does nothing, and with an
exhausted read buffer setRTS silently does nothing. -/
theorem manual_rts_ops_witness :
    unsetRTS stateFull = (stateFull, []) ∧
    setRTS stateFull = (stateFull, []) := by
  have h := manual_rts_ops stateFull
  refine ⟨?_, h.2.1 (by decide)⟩
  rw [h.1]
  decide

/-- C10: calling connectToDevice while the socket is open returns
immediately: no transport operation, no error, state and buffers
unchanged. -/
theorem connect_while_open_noop (s : VSP) (h : s.isOpen = true) :
    connectToDevice s = (s, []) := by
  unfold connectToDevice
  rw [if_pos h]

/-- Witness for C10 at the canonical connected state. -/
theorem connect_while_open_noop_witness :
    connectToDevice (connState Manufacturer.Laird 4096)
      = (connState Manufacturer.Laird 4096, []) :=
  connect_while_open_noop (connState Manufacturer.Laird 4096) rfl

end MiVSP
